import Mathlib

/-!
Verification development for the `ros_project_creator` scaffolding tool.

The Python sources under `src/ros_project_creator/` are embedded shallowly:
pure helpers become Lean functions, filesystem effects become explicit state
passing over a small `FS` model, and fallible code returns `Except`.
Definitions carry comments pointing to the Python file and lines they
transcribe.
-/

set_option maxRecDepth 4000

/-- Single-quote character (code point 39), used to reproduce the quoting of
paths and values inside the error messages of the Python source. -/
def quoteS : String := String.singleton (Char.ofNat 39)

/-- Newline character (code point 10). -/
def nlChar : Char := Char.ofNat 10

/-- Python `sep.join(strs)` transcription. -/
def pyJoin (sep : String) : List String → String
  | [] => ""
  | [x] => x
  | x :: xs => x ++ sep ++ pyJoin sep xs

/-- The whitespace characters stripped by Python `str.strip()` (space, tab,
newline, carriage return, vertical tab, form feed). -/
def isPySpace (c : Char) : Bool :=
  c == Char.ofNat 32 || c == Char.ofNat 9 || c == Char.ofNat 10 ||
    c == Char.ofNat 13 || c == Char.ofNat 11 || c == Char.ofNat 12

/-- Python `str.strip()` transcription: drop leading and trailing whitespace.
(`String.trim` of the Lean library is equivalent on these inputs but is not
kernel-reducible, so the strip is spelled out on the character list.) -/
def pyStrip (s : String) : String :=
  String.mk (((s.data.dropWhile isPySpace).reverse.dropWhile isPySpace).reverse)

/-- Splitting a string at slashes, transcribing `str.split("/")` /
`pathlib` component splitting on the character list (the library
`String.splitOn` is not kernel-reducible). -/
def splitSlashAux : List Char → List Char → List String
  | [], acc => [String.mk acc.reverse]
  | c :: rest, acc =>
    if c == Char.ofNat 47 then String.mk acc.reverse :: splitSlashAux rest []
    else splitSlashAux rest (c :: acc)

/-- See `splitSlashAux`. -/
def splitSlash (s : String) : List String := splitSlashAux s.data []

/-- Does the string start with a slash (`str.startswith("/")`)? -/
def startsWithSlash (s : String) : Bool :=
  match s.data with
  | [] => false
  | c :: _ => c == Char.ofNat 47

/-- A filesystem path, modelled as its list of components after resolution.
`Path.expanduser`/`Path.resolve` are modelled as identity on already-resolved
absolute inputs, which is what every claim instantiates. -/
abbrev FsPath := List String

/-- Renders a path the way `pathlib.PosixPath` prints inside f-strings:
slash-separated with a leading slash (all paths in the claims are absolute). -/
def FsPath.render (p : FsPath) : String := "/" ++ String.intercalate "/" p

/-- A POSIX filesystem state: the set of existing directories and a map from
file path to file content.  Permission bits are not modelled (no claim refers
to them), so the `chmod` calls of the source are no-ops here. -/
structure FS where
  dirs : List FsPath
  files : List (FsPath × String)
deriving Repr, DecidableEq

namespace FS

/-- Does `p` exist as a directory? (`Path.is_dir`) -/
def isDir (fs : FS) (p : FsPath) : Bool := fs.dirs.contains p

/-- Does `p` exist as a regular file? (`Path.is_file`) -/
def isFile (fs : FS) (p : FsPath) : Bool := fs.files.any (fun e => e.1 == p)

/-- Does `p` exist at all? (`Path.exists`) -/
def existsPath (fs : FS) (p : FsPath) : Bool := fs.isDir p || fs.isFile p

/-- Content of the regular file at `p`, if any. -/
def fileContent (fs : FS) (p : FsPath) : Option String :=
  (fs.files.find? (fun e => e.1 == p)).map (fun e => e.2)

/-- Create or replace the regular file at `p` (the `open("w")`/`shutil.copy`
write semantics). -/
def writeFile (fs : FS) (p : FsPath) (content : String) : FS :=
  { fs with files := (p, content) :: fs.files.filter (fun e => ¬ e.1 == p) }

/-- Remove the regular file at `p` (`Path.unlink`). -/
def unlink (fs : FS) (p : FsPath) : FS :=
  { fs with files := fs.files.filter (fun e => ¬ e.1 == p) }

/-- Does the directory `p` have any child (sub-directory or file below it)? -/
def hasChild (fs : FS) (p : FsPath) : Bool :=
  fs.dirs.any (fun d => d ≠ p && p.isPrefixOf d) ||
    fs.files.any (fun e => p.isPrefixOf e.1)

/-- Remove the directory at `p` (`Path.rmdir`; fails on a non-empty dir). -/
def removeDir (fs : FS) (p : FsPath) : FS :=
  { fs with dirs := fs.dirs.filter (fun d => ¬ d == p) }

/-- Add the directory `p` together with all its ancestors
(`Path.mkdir(parents=True, exist_ok=True)` effect on the tree shape). -/
def mkdirParents (fs : FS) (p : FsPath) : FS :=
  { fs with
    dirs := (p.inits.filter (fun q => q ≠ [] && ¬ fs.dirs.contains q)) ++ fs.dirs }

end FS

namespace Utilities

/-- `Utilities.clean_str` (utilities.py 66–75): strips leading and trailing
whitespace, propagating `None`. -/
def clean_str : Option String → Option String
  | none => none
  | some s => some (pyStrip s)

/-- `Utilities.write_file` (utilities.py 192–210): raises when the destination
already exists, otherwise writes `text` as the content of `file`. -/
def write_file (text : String) (file : FsPath) (fs : FS) : Except String FS :=
  if fs.existsPath file then
    .error ("File " ++ quoteS ++ file.render ++ quoteS ++ " already exists")
  else
    .ok (fs.writeFile file text)

end Utilities

/-! ### A tiny nondeterministic matcher for the Docker-image-name regex

`Utilities.is_valid_docker_image_name` (utilities.py 110–143) is a Python
regular expression.  Each named fragment of that regex is transcribed below as
a function from an input character list to the list of all possible remainders
after the fragment has consumed a prefix; the full pattern is their
composition, and the final anchoring reproduces `re.match` with a pattern of
the form `^...$` (in Python, `$` also matches just before a newline that ends
the string). -/

namespace PyRe

/-- A single character of a character class. -/
def pcls (p : Char → Bool) : List Char → List (List Char)
  | [] => []
  | c :: rest => if p c then [rest] else []

/-- `X+` for the character class `p`: consume one or more `p`-characters. -/
def pplus (p : Char → Bool) : List Char → List (List Char)
  | [] => []
  | c :: rest => if p c then rest :: pplus p rest else []

/-- Concatenation of two fragments. -/
def pseq (f g : List Char → List (List Char)) (l : List Char) : List (List Char) :=
  (f l).flatMap g

/-- Alternation of two fragments. -/
def palt (f g : List Char → List (List Char)) (l : List Char) : List (List Char) :=
  f l ++ g l

/-- `X?`: the fragment or nothing. -/
def popt (f : List Char → List (List Char)) (l : List Char) : List (List Char) :=
  f l ++ [l]

/-- Fueled Kleene star: zero or more repetitions of `f`, each consuming at
least one character (enforced by the length filter, which never discards a
result of the fragments used below since they all consume input). -/
def pstarAux (f : List Char → List (List Char)) : Nat → List Char → List (List Char)
  | 0, l => [l]
  | n + 1, l =>
    l :: ((f l).filter (fun r => r.length < l.length)).flatMap (pstarAux f n)

/-- `X*`, with enough fuel for any sequence of consuming repetitions. -/
def pstar (f : List Char → List (List Char)) (l : List Char) : List (List Char) :=
  pstarAux f l.length l

end PyRe

namespace Utilities

open PyRe

/-- Character class `[a-z0-9]`. -/
def isLowerAlnum (c : Char) : Bool :=
  (decide (Char.ofNat 97 ≤ c) && decide (c ≤ Char.ofNat 122)) ||
    (decide (Char.ofNat 48 ≤ c) && decide (c ≤ Char.ofNat 57))

/-- Character class `[a-z0-9.-]` of the registry host. -/
def isHostChar (c : Char) : Bool :=
  isLowerAlnum c || c == Char.ofNat 46 || c == Char.ofNat 45

/-- Character class `[0-9]` of the registry port. -/
def isDigitChar (c : Char) : Bool :=
  decide (Char.ofNat 48 ≤ c) && decide (c ≤ Char.ofNat 57)

/-- Character class `[a-zA-Z0-9_.-]` of the tag. -/
def isTagChar (c : Char) : Bool :=
  isLowerAlnum c || (decide (Char.ofNat 65 ≤ c) && decide (c ≤ Char.ofNat 90)) ||
    c == Char.ofNat 95 || c == Char.ofNat 46 || c == Char.ofNat 45

/-- `path_separator = (?:\.|_{1,2}|-+)`: a single dot, one or two underscores,
or a run of dashes. -/
def pSep : List Char → List (List Char) :=
  palt (pcls (fun c => c == Char.ofNat 46))
    (palt
      (palt (pseq (pcls (fun c => c == Char.ofNat 95)) (pcls (fun c => c == Char.ofNat 95)))
        (pcls (fun c => c == Char.ofNat 95)))
      (pplus (fun c => c == Char.ofNat 45)))

/-- `path_component = [a-z0-9]+(?:sep[a-z0-9]+)*`. -/
def pComp : List Char → List (List Char) :=
  pseq (pplus isLowerAlnum) (pstar (pseq pSep (pplus isLowerAlnum)))

/-- `path = component(/component)*`. -/
def pPath : List Char → List (List Char) :=
  pseq pComp (pstar (pseq (pcls (fun c => c == Char.ofNat 47)) pComp))

/-- `host_and_port = ([a-z0-9.-]+(:[0-9]+)?/)?`. -/
def pHostPort : List Char → List (List Char) :=
  popt (pseq (pplus isHostChar)
    (pseq (popt (pseq (pcls (fun c => c == Char.ofNat 58)) (pplus isDigitChar)))
      (pcls (fun c => c == Char.ofNat 47))))

/-- `tag = (:[a-zA-Z0-9_.-]+)?`. -/
def pTag : List Char → List (List Char) :=
  popt (pseq (pcls (fun c => c == Char.ofNat 58)) (pplus isTagChar))

/-- The full pattern `^{host_and_port}{path}{tag}$`. -/
def pFull : List Char → List (List Char) :=
  pseq pHostPort (pseq pPath pTag)

/-- `Utilities.is_valid_docker_image_name` (utilities.py 110–143):
`bool(full_re.match(name))` where the pattern is `^...$`.  `re.match` anchors
at the start, and Python `$` matches at the very end or just before a final
newline, so the name is valid iff some parse of the pattern leaves either an
empty remainder or a single trailing newline. -/
def is_valid_docker_image_name (name : String) : Bool :=
  (pFull name.data).any (fun r => r == [] || r == [nlChar])

end Utilities

/-! ### RosVariant (ros_variant.py) -/

/-- One record of the variant catalog `ros_variants.yaml`: the fields read by
`RosVariant`'s accessors. -/
structure Variant where
  ros_version : Nat
  ros_distro : String
  ubuntu_version : String
  c_version : String
  cpp_version : String
  python_version : String
deriving Repr, DecidableEq

namespace RosVariant

/-- The fragment `f"{ros_distro} (ros{data['ros_version']})"` of the
unsupported-distro error (ros_variant.py 25–27). -/
def formatEntry (k : String) (v : Variant) : String :=
  k ++ " (ros" ++ toString v.ros_version ++ ")"

/-- The joined enumeration of all supported distros. -/
def supportedMsg (catalog : List (String × Variant)) : String :=
  pyJoin ", " (catalog.map (fun kv => formatEntry kv.1 kv.2))

/-- Transcription of `RosVariant.__init__` (ros_variant.py 8–28).  The YAML
file is modelled by its already-loaded contents `catalog` plus its path
`yamlFile` (used only inside messages); `Utilities.load_yaml` returns `{}` on
a missing/invalid file, which the empty-catalog branch covers. -/
def lookup (ros_distro : String) (yamlFile : String) (catalog : List (String × Variant)) :
    Except String Variant :=
  let d := pyStrip ros_distro
  if d = "" then .error "ROS distro must be a non-empty string"
  else if catalog.isEmpty then
    .error ("No ROS variants found in the file " ++ quoteS ++ yamlFile ++ quoteS)
  else
    match catalog.find? (fun kv => kv.1 == d) with
    | some kv => .ok kv.2
    | none =>
      .error ("Found ROS distro " ++ quoteS ++ d ++ quoteS ++ ". Allowed ROS distros: "
        ++ supportedMsg catalog)

end RosVariant

namespace RosProjectCreator

/-- Home-path rule of ros_project_creator.py 189–192: `Path(f"/{user}")` when
the image user is `root`, `Path(f"/home/{user}")` otherwise.  The same rule is
repeated in create_vscode_project.py 76–86. -/
def imgUserHome (img_user : String) : String :=
  if img_user == "root" then "/" ++ img_user else "/home/" ++ img_user

end RosProjectCreator

/-! ### Declarative languages for the image-name pattern

Each regex fragment also gets a declarative language (a predicate on character
lists built from concatenation, union and star), and `Parses` states that a
matcher function recognises exactly the prefixes in a language.  This connects
the executable transcription of the regex to a grammar that theorems can
quantify over. -/

namespace PyRe

/-- Language of a single class character. -/
def LOne (p : Char → Bool) (w : List Char) : Prop := ∃ c, p c = true ∧ w = [c]

/-- Language of `X+` over the class `p`. -/
def LPlus (p : Char → Bool) (w : List Char) : Prop := w ≠ [] ∧ ∀ c ∈ w, p c = true

/-- Concatenation of languages. -/
def LCat (L M : List Char → Prop) (w : List Char) : Prop :=
  ∃ u v, L u ∧ M v ∧ w = u ++ v

/-- Union of languages. -/
def LOr (L M : List Char → Prop) (w : List Char) : Prop := L w ∨ M w

/-- The empty-word language. -/
def LEps (w : List Char) : Prop := w = []

/-- Language of `X?`. -/
def LOpt (L : List Char → Prop) : List Char → Prop := LOr L LEps

/-- Kleene star of a language. -/
inductive LStar (L : List Char → Prop) : List Char → Prop where
  | nil : LStar L []
  | app (u v : List Char) : L u → LStar L v → LStar L (u ++ v)

/-- `f` recognises exactly the splits `l = u ++ r` with `u` in `L`. -/
def Parses (f : List Char → List (List Char)) (L : List Char → Prop) : Prop :=
  ∀ l r, r ∈ f l ↔ ∃ u, L u ∧ l = u ++ r

end PyRe

namespace Utilities

open PyRe

/-- Language of `path_separator`. -/
def SepLang : List Char → Prop :=
  LOr (LOne (fun c => c == Char.ofNat 46))
    (LOr
      (LOr (LCat (LOne (fun c => c == Char.ofNat 95)) (LOne (fun c => c == Char.ofNat 95)))
        (LOne (fun c => c == Char.ofNat 95)))
      (LPlus (fun c => c == Char.ofNat 45)))

/-- Language of `path_component`. -/
def CompLang : List Char → Prop :=
  LCat (LPlus isLowerAlnum) (LStar (LCat SepLang (LPlus isLowerAlnum)))

/-- Language of `path` (slash-separated components). -/
def PathLang : List Char → Prop :=
  LCat CompLang (LStar (LCat (LOne (fun c => c == Char.ofNat 47)) CompLang))

/-- Language of the optional `host[:port]/` part. -/
def HostPortLang : List Char → Prop :=
  LOpt (LCat (LPlus isHostChar)
    (LCat (LOpt (LCat (LOne (fun c => c == Char.ofNat 58)) (LPlus isDigitChar)))
      (LOne (fun c => c == Char.ofNat 47))))

/-- Language of the optional `:tag` part. -/
def TagLang : List Char → Prop :=
  LOpt (LCat (LOne (fun c => c == Char.ofNat 58)) (LPlus isTagChar))

/-- The declarative language of the full image-name regex of the code:
`[host[:port]/] component (sep component)* (/ component (sep component)*)* [:tag]`. -/
def DockerNameLang : List Char → Prop :=
  LCat HostPortLang (LCat PathLang TagLang)

/-- The image-name grammar exactly as the specification words it
(spec §8: `[host[:port]/]component(sep component)*[:tag]`): the whole path is
one sep-joined chain of lowercase-alphanumeric components — no slash-separated
repetition — and the match covers the entire string.  This is the spec-side
definition of the refinement claim C2, to be compared with the language of the
code's regex. -/
def SpecC2Grammar : List Char → Prop :=
  LCat HostPortLang (LCat CompLang TagLang)

/-- Executable matcher for `SpecC2Grammar` (used to decide concrete instances):
the same fragment transcriptions, composed as the spec's grammar reads, with
the match required to cover the entire string. -/
def specC2Match (name : String) : Bool :=
  (pseq pHostPort (pseq pComp pTag) name.data).any (fun r => r == [])

end Utilities

/-! ### VscodeProjectCreator (vscode_project_creator.py) -/

namespace VscodeProjectCreator

/-- The Python value at position 1 of a 3-element manifest item (the render
context): only `None`-ness, dict-ness and the entry list are observed. -/
inductive PyCtx where
  | pyNone
  | pyDict (entries : List (String × String))
  | pyOther
deriving Repr, DecidableEq

/-- One manifest item (vscode_project_creator.py 155–200): the Python lists of
length 1, 2 or 3 become a closed sum. -/
inductive Item where
  | dirItem (src : Option String)
  | fileItem (src : Option String) (isExec : Bool)
  | renderItem (src : Option String) (ctx : PyCtx) (isExec : Bool)
deriving Repr, DecidableEq

/-- The source-path field (position 0) of an item. -/
def Item.src : Item → Option String
  | .dirItem s => s
  | .fileItem s _ => s
  | .renderItem s _ _ => s

/-- A resource of the package resource library: a file with content, or a
directory. -/
inductive ResEntry where
  | fileRes (content : String)
  | dirRes
deriving Repr, DecidableEq

/-- Filesystem effects performed by the installer, in order. -/
inductive Effect where
  | removedFile (p : FsPath)
  | removedDir (p : FsPath)
  | madeDir (p : FsPath)
  | wroteFile (p : FsPath)
  | copiedTree (p : FsPath)
deriving Repr, DecidableEq

/-- The fields of `VscodeProjectCreator` read while building the manifest
(vscode_project_creator.py 152–200).  Scalar context values (paths, bools,
uids) are modelled as strings, since the claims only observe the shape of the
context. -/
structure Cfg where
  img_user : String
  img_id : String
  workspace_dir : String
  img_workspace_dir : String
  img_datasets_dir : String
  img_ssh_dir : String
  use_host_nvidia_driver : Bool
  use_git : Bool
  gitconfig_file : String
  img_gitconfig_file : String
  ext_uid : String
  ext_upgid : String
  c_version : String
  cpp_version : String
  ros_distro : String
  build_release_cmd : String
  build_debug_cmd : String
  build_relwithdebinfo_cmd : String
  clean_cmd : String
deriving Repr, DecidableEq

/-- `VscodeProjectCreator._create_items_to_install`
(vscode_project_creator.py 152–200), transcribed entry by entry. -/
def createItemsToInstall (cfg : Cfg) : List (String × Item) :=
  [ (".devcontainer/devcontainer.json",
      .renderItem (some "vscode/dot_devcontainer.j2")
        (.pyDict [("service", "devcont"), ("img_user", cfg.img_user),
          ("img_workspace_dir", cfg.img_workspace_dir)]) false),
    (".devcontainer/docker-compose.yaml",
      .renderItem (some "docker/docker-compose.j2")
        (.pyDict [("service", "devcont"), ("img_id", cfg.img_id),
          ("use_host_nvidia_driver", toString cfg.use_host_nvidia_driver),
          ("workspace_dir", cfg.workspace_dir),
          ("img_workspace_dir", cfg.img_workspace_dir),
          ("img_datasets_dir", cfg.img_datasets_dir),
          ("img_ssh_dir", cfg.img_ssh_dir),
          ("use_git", toString cfg.use_git),
          ("gitconfig_file", cfg.gitconfig_file),
          ("img_gitconfig_file", cfg.img_gitconfig_file),
          ("ext_uid", cfg.ext_uid), ("ext_upgid", cfg.ext_upgid)]) true),
    (".vscode/c_cpp_properties.json",
      .renderItem (some "vscode/c_cpp_properties.j2")
        (.pyDict [("c_version", "c" ++ cfg.c_version),
          ("cpp_version", "c++" ++ cfg.cpp_version),
          ("ros_distro", cfg.ros_distro)]) false),
    (".vscode/settings.json", .fileItem (some "vscode/settings.json") true),
    (".vscode/tasks.json",
      .renderItem (some "vscode/tasks.j2")
        (.pyDict [("build_command_for_release", cfg.build_release_cmd),
          ("build_command_for_debug", cfg.build_debug_cmd),
          ("build_command_for_relwithdebinfo", cfg.build_relwithdebinfo_cmd),
          ("clean_command", cfg.clean_cmd)]) true),
    ("ws.code-workspace",
      .renderItem (some "vscode/ws.j2")
        (.pyDict [("ros_distro", cfg.ros_distro)]) false) ]

/-- `resources_dir.joinpath(rel)` when the manifest source is relative, the
path itself when absolute (vscode_project_creator.py 215–219). -/
def resolveSrc (resDir : String) (s : String) : String :=
  if startsWithSlash s then s else resDir ++ "/" ++ s

/-- `if not dst_path.parent.exists(): dst_path.parent.mkdir(parents=True)`. -/
def ensureParent (dst : FsPath) (fs : FS) : List Effect × FS :=
  if fs.existsPath dst.dropLast then ([], fs)
  else ([.madeDir dst.dropLast], fs.mkdirParents dst.dropLast)

/-- Dispatch on the item kind after the destination has been cleared
(vscode_project_creator.py 239–311).  `src` carries the resolved source path
and the resource found there (existence was checked before). -/
def installItemAct (render : String → List (String × String) → String)
    (dst : FsPath) (src : Option (String × ResEntry)) (item : Item) (fs : FS) :
    List Effect × Except String FS :=
  match item with
  | .dirItem _ =>
    match src with
    | some (sp, e) =>
      match e with
      | .dirRes =>
        let pr := ensureParent dst fs
        (pr.1 ++ [.copiedTree dst], .ok (pr.2.mkdirParents dst))
      | .fileRes _ =>
        ([], .error ("Directory " ++ quoteS ++ sp ++ quoteS ++ " is required"))
    | none => ([.madeDir dst], .ok (fs.mkdirParents dst))
  | .fileItem _ _ =>
    match src with
    | some (sp, e) =>
      match e with
      | .fileRes content =>
        let pr := ensureParent dst fs
        (pr.1 ++ [.wroteFile dst], .ok (pr.2.writeFile dst content))
      | .dirRes =>
        ([], .error ("File " ++ quoteS ++ sp ++ quoteS ++ " is required."))
    | none =>
      if fs.existsPath dst.dropLast then ([.wroteFile dst], .ok (fs.writeFile dst ""))
      else ([], .error ("No such file or directory: " ++ dst.render))
  | .renderItem _ ctx _ =>
    match src with
    | none =>
      ([], .error ("Relative source path can" ++ quoteS ++ "t be empty for element "
        ++ quoteS ++ dst.render ++ quoteS ++ "."))
    | some (sp, e) =>
      match e with
      | .dirRes => ([], .error ("Template " ++ quoteS ++ sp ++ quoteS ++ " is required."))
      | .fileRes tContent =>
        match ctx with
        | .pyNone =>
          ([], .error ("Context for Jinja2 rendering can" ++ quoteS
            ++ "t be None for element " ++ quoteS ++ dst.render ++ quoteS ++ "."))
        | .pyOther =>
          ([], .error ("Context for Jinja2 rendering must be a dictionary for element "
            ++ quoteS ++ dst.render ++ quoteS ++ "."))
        | .pyDict entries =>
          let pr := ensureParent dst fs
          (pr.1 ++ [.wroteFile dst], .ok (pr.2.writeFile dst (render tContent entries)))

/-- Clearing of a pre-existing destination (vscode_project_creator.py 223–228):
an existing regular file is unlinked, an existing directory is removed with
`Path.rmdir` (which raises on a non-empty directory). -/
def installItemClear (render : String → List (String × String) → String)
    (dst : FsPath) (src : Option (String × ResEntry)) (item : Item) (fs : FS) :
    List Effect × Except String FS :=
  if fs.isFile dst then
    let r := installItemAct render dst src item (fs.unlink dst)
    (Effect.removedFile dst :: r.1, r.2)
  else if fs.isDir dst then
    if fs.hasChild dst then
      ([], .error ("Directory not empty: " ++ dst.render))
    else
      let r := installItemAct render dst src item (fs.removeDir dst)
      (Effect.removedDir dst :: r.1, r.2)
  else installItemAct render dst src item fs

/-- Processing of one manifest entry by `VscodeProjectCreator._install_items`
(vscode_project_creator.py 205–311): resolve and check the source resource,
clear the destination, then apply the action.  `res` is the package resource
library keyed by resolved source path; `render` abstracts
`jinja2.Template.render`. -/
def installItem (res : List (String × ResEntry))
    (render : String → List (String × String) → String)
    (resDir : String) (wsDir : FsPath) (key : String) (item : Item) (fs : FS) :
    List Effect × Except String FS :=
  let dst : FsPath := wsDir ++ splitSlash key
  match item.src with
  | some s =>
    let sp := resolveSrc resDir s
    match res.find? (fun e => e.1 == sp) with
    | none =>
      ([], .error ("Required resource " ++ quoteS ++ sp ++ quoteS ++ " does not exist."))
    | some e => installItemClear render dst (some (sp, e.2)) item fs
  | none => installItemClear render dst none item fs

/-- Comparison used to model Python `sorted` on strings. -/
def strLe (a b : String) : Bool := decide (a ≤ b)

/-- `sorted(self._items_to_install.keys())` (vscode_project_creator.py 205):
the destination keys in ascending lexicographic order. -/
def sortedKeys (items : List (String × Item)) : List String :=
  (items.map (fun e => e.1)).mergeSort strLe

/-- The iteration of `_install_items` over the sorted keys, threading the
filesystem and accumulating effects; the first error aborts. -/
def installItemsGo (res : List (String × ResEntry))
    (render : String → List (String × String) → String)
    (resDir : String) (wsDir : FsPath) (items : List (String × Item)) :
    List String → FS → List Effect × Except String FS
  | [], fs => ([], .ok fs)
  | k :: ks, fs =>
    match items.find? (fun e => e.1 == k) with
    | none => ([], .error ("KeyError: " ++ k))
    | some e =>
      let r := installItem res render resDir wsDir k e.2 fs
      match r.2 with
      | .error msg => (r.1, .error msg)
      | .ok fs1 =>
        let r2 := installItemsGo res render resDir wsDir items ks fs1
        (r.1 ++ r2.1, r2.2)

/-- `VscodeProjectCreator._install_items` (vscode_project_creator.py 202–311)
applied to an arbitrary manifest. -/
def installItems (res : List (String × ResEntry))
    (render : String → List (String × String) → String)
    (resDir : String) (wsDir : FsPath) (items : List (String × Item)) (fs : FS) :
    List Effect × Except String FS :=
  installItemsGo res render resDir wsDir items (sortedKeys items) fs

/-- An entry key `p` lies strictly below an entry key `a` in the destination
tree: `p = a ++ "/" ++ r` for a non-empty rest. -/
def KeyBelow (a p : String) : Prop := ∃ r, r ≠ "" ∧ p = a ++ "/" ++ r

end VscodeProjectCreator

/-! ### RosProjectCreator validation and run (ros_project_creator.py) -/

namespace RosProjectCreator

/-- The constructor arguments of `RosProjectCreator.__init__`
(ros_project_creator.py 35–50). -/
structure Args where
  project_id : String
  project_dir : Option String
  ros_distro : String
  base_img : String
  supported_docker_platforms : List (String × List String)
  docker_platform : String
  img_id : Option String
  img_user : Option String
  use_vscode_project : Bool
  use_pre_commit : Bool
  use_console_log : Bool
deriving Repr, DecidableEq

/-- Ambient process environment read by the constructor: the `SUDO_USER` and
`USER` variables, the account-database home of the invoking user
(`pwd.getpwnam(...).pw_dir`, resolved), the machine architecture
(`platform.machine()`), and `shutil.which` results for the two external
binaries. -/
structure Env where
  sudo_user : Option String
  user : Option String
  user_home : FsPath
  machine_arch : String
  git_available : Bool
  pre_commit_available : Bool
deriving Repr, DecidableEq

/-- The static package resources consulted by the constructor: the variant
catalog (already loaded from `ros_variants.yaml`, whose path is kept for
messages) and the presence of the resource/template tree.  The forty-odd
read-only existence asserts of `_check_templates_existance` are summarised by
the single flag `templates_present`; no claim distinguishes which template is
missing. -/
structure Resources where
  resources_dir : String
  variants_yaml : String
  variants : List (String × Variant)
  resources_dir_present : Bool
  templates_present : Bool
deriving Repr, DecidableEq

/-- The validated state produced by a successful `__init__`. -/
structure St where
  project_id : String
  project_dir : FsPath
  variant : Variant
  base_img : String
  docker_platform : String
  img_id : String
  img_user : String
  img_user_home : String
  use_pre_commit : Bool
deriving Repr, DecidableEq

/-- Model of `Path(s).expanduser().resolve()` restricted to absolute inputs:
split on slashes, dropping empty components. -/
def resolvePath (s : String) : FsPath := (splitSlash s).filter (fun c => c ≠ "")

/-- Default-platform resolution (ros_project_creator.py 150–155): the loop
keeps the id of the last supported platform whose architecture list contains
the machine architecture. -/
def defaultPlatform (platforms : List (String × List String)) (arch : String) : String :=
  platforms.foldl (fun acc p => if p.2.contains arch then p.1 else acc) ""

/-- One line of the unsupported-architecture message
(ros_project_creator.py 158–163). -/
def archLine (p : String × List String) : String :=
  "Architectures: " ++ pyJoin ", " p.2 ++ " // Docker platform: " ++ p.1

/-- The unsupported-architecture error (ros_project_creator.py 165–167). -/
def archUnsupportedMsg (arch : String) (platforms : List (String × List String)) : String :=
  "Architecture " ++ quoteS ++ arch ++ quoteS
    ++ " is not supported.\nSupported architectures and Docker platforms are:\n"
    ++ pyJoin "\n" (platforms.map archLine)

/-- The invalid-image-name error (ros_project_creator.py 136–141 and 179–184),
parameterised by the leading noun phrase. -/
def invalidNameMsg (what name : String) : String :=
  what ++ " " ++ quoteS ++ name ++ quoteS ++ " is not a valid Docker image name. "
    ++ "Valid names must start with a lowercase letter or number, "
    ++ "followed by lowercase letters, numbers, underscores, or dashes."

/-- The already-exists error (ros_project_creator.py 121–125). -/
def alreadyExistsMsg (dir : FsPath) : String :=
  "Project dir " ++ quoteS ++ dir.render ++ quoteS ++ " already exists. "
    ++ "Remove it manually or choose a different project directory."

/-- The outside-home error (ros_project_creator.py 112–115). -/
def outsideHomeMsg (dir home : FsPath) : String :=
  "Error: Project directory is " ++ quoteS ++ dir.render ++ quoteS
    ++ ". Project directory must be inside the home of the active user "
    ++ quoteS ++ home.render ++ quoteS

/-- The construction of `VscodeProjectCreator` from `RosProjectCreator.__init__`
(ros_project_creator.py 200–211) binds its eight positional arguments against
a ten-parameter signature, shifting them: the vscode `img_workspace_dir`
parameter receives the boolean `use_console_log`.  Its constructor
(vscode_project_creator.py 66–113) passes the earlier checks (resources dir,
variant lookup on the distro label, non-empty image id/user, absolute
`img_user_home` and `workspace_dir`) and then evaluates
`img_workspace_dir.is_absolute()` on a bool, raising `AttributeError` — or,
when the bool is falsy, fails the preceding `if not img_workspace_dir` check.
The unreachable success outcome is represented by the impossible `.ok` of an
`Except`. -/
def vscodeCtorViaRos (res : Resources) (variant : Variant) (use_console_log : Bool) :
    Except String Unit :=
  if ¬ res.resources_dir_present then
    .error ("Path " ++ quoteS ++ res.resources_dir ++ quoteS ++ " is required")
  else
    match RosVariant.lookup variant.ros_distro res.variants_yaml res.variants with
    | .error e => .error e
    | .ok _ =>
      if use_console_log then
        .error ("AttributeError: " ++ quoteS ++ "bool" ++ quoteS
          ++ " object has no attribute " ++ quoteS ++ "is_absolute" ++ quoteS)
      else .error "Image workspace path must be provided"

/-- `RosProjectCreator.__init__` (ros_project_creator.py 35–223), transcribed
check by check in source order.  The constructor only reads the filesystem;
it performs no mutation. -/
def init (a : Args) (env : Env) (res : Resources) (fs : FS) : Except String St :=
  let pid := pyStrip a.project_id
  if pid = "" then .error ("Project" ++ quoteS ++ "s id must be a non-empty string")
  else
    match a.project_dir with
    | none => .error "Project directory must be provided"
    | some pdRaw =>
      if pdRaw ≠ "" ∧ pyStrip pdRaw = "" then
        .error "Project directory cannot consist only of whitespace characters"
      else
        let dir := resolvePath (pyStrip pdRaw)
        let realUser : Option String :=
          match env.sudo_user with
          | some s => if s = "" then env.user else some s
          | none => env.user
        match realUser with
        | none => .error "Unable to determine the active user"
        | some ru =>
          if ru = "" then .error "Unable to determine the active user"
          else
            let home := env.user_home
            if ¬ home.isPrefixOf dir then .error (outsideHomeMsg dir home)
            else if fs.existsPath dir then .error (alreadyExistsMsg dir)
            else if ¬ res.resources_dir_present then
              .error ("Path " ++ quoteS ++ res.resources_dir ++ quoteS ++ " is required")
            else
              match RosVariant.lookup a.ros_distro res.variants_yaml res.variants with
              | .error e => .error e
              | .ok variant =>
                let bimg := pyStrip a.base_img
                if bimg = "" then .error "Base image must be a non-empty string"
                else if ¬ Utilities.is_valid_docker_image_name bimg then
                  .error (invalidNameMsg "Base image" bimg)
                else if a.supported_docker_platforms.isEmpty then
                  .error "Supported platforms must be a non-empty list"
                else
                  let dp0 := pyStrip a.docker_platform
                  let dp := if dp0 = "" then
                      defaultPlatform a.supported_docker_platforms env.machine_arch
                    else dp0
                  if dp0 = "" ∧ dp = "" then
                    .error (archUnsupportedMsg env.machine_arch a.supported_docker_platforms)
                  else if ¬ a.supported_docker_platforms.any (fun p => p.1 == dp) then
                    .error ("Platform " ++ quoteS ++ dp ++ quoteS
                      ++ " is not supported.\nSupported Docker platforms are: "
                      ++ pyJoin ", " (a.supported_docker_platforms.map (fun p => p.1)))
                  else
                    let iid := match a.img_id with
                      | none => pid ++ ":latest"
                      | some s => if pyStrip s = "" then pid ++ ":latest" else pyStrip s
                    if ¬ Utilities.is_valid_docker_image_name iid then
                      .error (invalidNameMsg "Image ID" iid)
                    else
                      match Utilities.clean_str a.img_user with
                      | none => .error "Image user must be a non-empty string"
                      | some iu =>
                        if iu = "" then .error "Image user must be a non-empty string"
                        else
                          let vscodeStep : Except String Unit :=
                            if a.use_vscode_project then
                              vscodeCtorViaRos res variant a.use_console_log
                            else .ok ()
                          match vscodeStep with
                          | .error e => .error e
                          | .ok _ =>
                            if ¬ res.templates_present then
                              .error "Required template or resource directory is missing"
                            else if variant.ros_version ≠ 1 ∧ variant.ros_version ≠ 2 then
                              .error ("ROS version " ++ quoteS ++ toString variant.ros_version
                                ++ quoteS ++ " is not supported. Supported versions are 1 and 2")
                            else if ¬ env.git_available then
                              .error "Git binary not found in the system"
                            else if a.use_pre_commit ∧ ¬ env.pre_commit_available then
                              .error "pre-commit binary not found in the system"
                            else
                              .ok { project_id := pid, project_dir := dir,
                                    variant := variant, base_img := bimg,
                                    docker_platform := dp, img_id := iid,
                                    img_user := iu, img_user_home := imgUserHome iu,
                                    use_pre_commit := a.use_pre_commit }

/-- A full `RosProjectCreator` run: `__init__` followed by `create()`
(ros_project_creator.py 701–718).  The body of `create()` is abstracted as a
continuation `k` on the validated state; a constructor failure propagates
before `create()` starts, so the filesystem is returned unchanged no matter
what the continuation would do. -/
def runWith (k : St → FS → Except String Unit × FS)
    (a : Args) (env : Env) (res : Resources) (fs : FS) : Except String Unit × FS :=
  match init a env res fs with
  | .error e => (.error e, fs)
  | .ok st => k st fs

end RosProjectCreator

/-! ### The command-line entry point (create_ros_project.py) -/

namespace CreateRosProject

/-- The parameters of `RosProjectCreator.__init__` in order, excluding `self`
(ros_project_creator.py 35–50). -/
def rosProjectCreatorParams : List String :=
  ["project_id", "project_dir", "ros_distro", "base_img",
   "supported_docker_platforms", "docker_platform", "img_id", "img_user",
   "use_vscode_project", "use_pre_commit", "use_console_log", "log_file",
   "log_level"]

/-- How many of those parameters carry default values (the last five). -/
def rosProjectCreatorDefaults : Nat := 5

/-- The positional arguments of the `RosProjectCreator(...)` call in
`create_ros_project.main` (create_ros_project.py 133–149), as written there. -/
def mainCallArgs : List String :=
  ["args.project_id", "Path(args.project_dir)", "args.ros_distro",
   "args.base_img", "args.img_user", "args.img_id", "entrypoint",
   "args.use_base_img_entrypoint", "environment", "not args.no_environment",
   "not args.no_vscode", "not args.no_pre_commit", "not args.no_console_log",
   "args.log_file", "args.log_level"]

/-- Python positional binding: a call made only of positional arguments binds
iff the argument count is at most the parameter count and at least the count
of parameters without defaults; otherwise the call raises `TypeError`. -/
def pythonCallBinds (params : List String) (defaults : Nat) (args : List String) : Bool :=
  decide (args.length ≤ params.length) && decide (params.length - defaults ≤ args.length)

/-- `create_ros_project.main` (create_ros_project.py 13–155) around the
constructor call: when the call fails to bind, the `TypeError` is caught by
`except Exception`, printed, and the process exits with code 1 before any
`RosProjectCreator` code runs.  The run that would follow a successful bind is
abstracted as continuation `k` returning an exit code and a filesystem. -/
def mainRun (k : FS → Nat × FS) (fs : FS) : Nat × FS :=
  if pythonCallBinds rosProjectCreatorParams rosProjectCreatorDefaults mainCallArgs then k fs
  else (1, fs)

/-- The output directory of the C1 scenario: `/home/user/robproj`. -/
def robprojDir : FsPath := ["home", "user", "robproj"]

/-- The initial filesystem of the C1 scenario: the user home exists, the
output directory does not. -/
def scenarioFS : FS := { dirs := [["home"], ["home", "user"]], files := [] }

end CreateRosProject

/-! ## Theorems

First the generic correspondence between the matcher combinators and the
declarative languages, then the claim theorems. -/

namespace PyRe

theorem parses_pcls (p : Char → Bool) : Parses (pcls p) (LOne p) := by
  intro l r
  cases l with
  | nil =>
    simp only [pcls, List.not_mem_nil, false_iff, LOne]
    rintro ⟨u, ⟨c, _, rfl⟩, h⟩
    exact List.cons_ne_nil _ _ h.symm
  | cons c rest =>
    constructor
    · intro h
      simp only [pcls] at h
      by_cases hp : p c = true
      · rw [if_pos hp] at h
        rcases List.mem_singleton.mp h with rfl
        exact ⟨[c], ⟨c, hp, rfl⟩, rfl⟩
      · rw [if_neg hp] at h
        exact absurd h (List.not_mem_nil r)
    · rintro ⟨u, ⟨d, hd, rfl⟩, he⟩
      rcases List.cons_eq_cons.mp he with ⟨rfl, rfl⟩
      simp [pcls, hd]

theorem parses_pplus (p : Char → Bool) : Parses (pplus p) (LPlus p) := by
  intro l
  induction l with
  | nil =>
    intro r
    simp only [pplus, List.not_mem_nil, false_iff, LPlus]
    rintro ⟨u, ⟨hne, _⟩, h⟩
    exact hne (List.append_eq_nil.mp h.symm).1
  | cons c rest ih =>
    intro r
    constructor
    · intro h
      simp only [pplus] at h
      by_cases hp : p c = true
      · rw [if_pos hp] at h
        rcases List.mem_cons.mp h with rfl | h
        · exact ⟨[c], ⟨List.cons_ne_nil c [], by simp [hp]⟩, rfl⟩
        · rcases (ih r).mp h with ⟨u, ⟨hne, hall⟩, rfl⟩
          refine ⟨c :: u, ⟨List.cons_ne_nil c u, ?_⟩, rfl⟩
          intro d hd
          rcases List.mem_cons.mp hd with rfl | hd
          · exact hp
          · exact hall d hd
      · rw [if_neg hp] at h
        exact absurd h (List.not_mem_nil r)
    · rintro ⟨u, ⟨hne, hall⟩, he⟩
      match u, hne with
      | d :: u', _ =>
        rcases List.cons_eq_cons.mp he with ⟨rfl, rfl⟩
        have hp : p c = true := hall c (List.mem_cons_self c u')
        simp only [pplus, if_pos hp, List.mem_cons]
        cases u' with
        | nil => exact Or.inl rfl
        | cons e u'' =>
          refine Or.inr ((ih r).mpr ⟨e :: u'', ⟨List.cons_ne_nil e u'', ?_⟩, rfl⟩)
          intro d hd
          exact hall d (List.mem_cons_of_mem c hd)

theorem parses_pseq {f g : List Char → List (List Char)} {L M : List Char → Prop}
    (hf : Parses f L) (hg : Parses g M) : Parses (pseq f g) (LCat L M) := by
  intro l r
  simp only [pseq, List.mem_flatMap]
  constructor
  · rintro ⟨m, hm, hr⟩
    rcases (hf l m).mp hm with ⟨u, hu, rfl⟩
    rcases (hg _ r).mp hr with ⟨v, hv, rfl⟩
    exact ⟨u ++ v, ⟨u, v, hu, hv, rfl⟩, (List.append_assoc u v r).symm⟩
  · rintro ⟨w, ⟨u, v, hu, hv, rfl⟩, rfl⟩
    exact ⟨v ++ r, (hf _ _).mpr ⟨u, hu, (List.append_assoc u v r)⟩,
      (hg _ _).mpr ⟨v, hv, rfl⟩⟩

theorem parses_palt {f g : List Char → List (List Char)} {L M : List Char → Prop}
    (hf : Parses f L) (hg : Parses g M) : Parses (palt f g) (LOr L M) := by
  intro l r
  simp only [palt, List.mem_append]
  constructor
  · rintro (h | h)
    · rcases (hf l r).mp h with ⟨u, hu, rfl⟩
      exact ⟨u, Or.inl hu, rfl⟩
    · rcases (hg l r).mp h with ⟨u, hu, rfl⟩
      exact ⟨u, Or.inr hu, rfl⟩
  · rintro ⟨u, hu | hu, rfl⟩
    · exact Or.inl ((hf _ _).mpr ⟨u, hu, rfl⟩)
    · exact Or.inr ((hg _ _).mpr ⟨u, hu, rfl⟩)

theorem parses_popt {f : List Char → List (List Char)} {L : List Char → Prop}
    (hf : Parses f L) : Parses (popt f) (LOpt L) := by
  intro l r
  simp only [popt, List.mem_append, List.mem_singleton]
  constructor
  · rintro (h | rfl)
    · rcases (hf l r).mp h with ⟨u, hu, rfl⟩
      exact ⟨u, Or.inl hu, rfl⟩
    · exact ⟨[], Or.inr rfl, rfl⟩
  · rintro ⟨u, hu | hu, rfl⟩
    · exact Or.inl ((hf _ _).mpr ⟨u, hu, rfl⟩)
    · rcases hu with rfl
      exact Or.inr rfl

theorem self_mem_pstarAux (f : List Char → List (List Char)) (n : Nat) (l : List Char) :
    l ∈ pstarAux f n l := by
  cases n with
  | zero => simp [pstarAux]
  | succ n => simp [pstarAux]

theorem pstarAux_sound {f : List Char → List (List Char)} {L : List Char → Prop}
    (hf : Parses f L) :
    ∀ n l r, r ∈ pstarAux f n l → ∃ u, LStar L u ∧ l = u ++ r := by
  intro n
  induction n with
  | zero =>
    intro l r h
    rcases List.mem_singleton.mp h with rfl
    exact ⟨[], LStar.nil, rfl⟩
  | succ n ih =>
    intro l r h
    rcases List.mem_cons.mp h with rfl | h
    · exact ⟨[], LStar.nil, rfl⟩
    · rcases List.mem_flatMap.mp h with ⟨m, hm, hr⟩
      have hm' := List.mem_filter.mp hm
      rcases (hf l m).mp hm'.1 with ⟨u, hu, rfl⟩
      rcases ih m r hr with ⟨v, hv, rfl⟩
      exact ⟨u ++ v, LStar.app u v hu hv, (List.append_assoc u v r).symm⟩

theorem pstarAux_complete {f : List Char → List (List Char)} {L : List Char → Prop}
    (hf : Parses f L) (hne : ∀ u, L u → u ≠ []) :
    ∀ u, LStar L u → ∀ n r, u.length ≤ n → r ∈ pstarAux f n (u ++ r) := by
  intro u hu
  induction hu with
  | nil =>
    intro n r _
    exact self_mem_pstarAux f n r
  | app u v huL hvS ih =>
    intro n r hlen
    have hune : u ≠ [] := hne u huL
    have hupos : 0 < u.length := List.length_pos.mpr hune
    cases n with
    | zero =>
      exfalso
      rw [List.length_append] at hlen
      omega
    | succ n =>
      simp only [pstarAux, List.mem_cons]
      refine Or.inr (List.mem_flatMap.mpr ⟨v ++ r, ?_, ?_⟩)
      · refine List.mem_filter.mpr ⟨(hf _ _).mpr ⟨u, huL, ?_⟩, ?_⟩
        · exact (List.append_assoc u v r).symm ▸ rfl
        · simp only [decide_eq_true_eq, List.append_assoc, List.length_append]
          omega
      · refine ih n r ?_
        rw [List.length_append] at hlen
        omega

theorem parses_pstar {f : List Char → List (List Char)} {L : List Char → Prop}
    (hf : Parses f L) (hne : ∀ u, L u → u ≠ []) : Parses (pstar f) (LStar L) := by
  intro l r
  constructor
  · intro h
    exact pstarAux_sound hf l.length l r h
  · rintro ⟨u, hu, rfl⟩
    refine pstarAux_complete hf hne u hu (u ++ r).length r ?_
    rw [List.length_append]
    omega

theorem LOne_ne_nil {p : Char → Bool} {u : List Char} (h : LOne p u) : u ≠ [] := by
  rcases h with ⟨c, _, rfl⟩
  exact List.cons_ne_nil c []

theorem LPlus_ne_nil {p : Char → Bool} {u : List Char} (h : LPlus p u) : u ≠ [] := h.1

theorem LCat_ne_nil_left {L M : List Char → Prop} (hL : ∀ u, L u → u ≠ []) :
    ∀ w, LCat L M w → w ≠ [] := by
  rintro w ⟨u, v, hu, _, rfl⟩ h
  exact hL u hu (List.append_eq_nil.mp h).1

theorem LCat_ne_nil_right {L M : List Char → Prop} (hM : ∀ v, M v → v ≠ []) :
    ∀ w, LCat L M w → w ≠ [] := by
  rintro w ⟨u, v, _, hv, rfl⟩ h
  exact hM v hv (List.append_eq_nil.mp h).2

end PyRe

namespace Utilities

open PyRe

theorem parses_pSep : Parses pSep SepLang := by
  unfold pSep SepLang
  exact parses_palt (parses_pcls _)
    (parses_palt
      (parses_palt (parses_pseq (parses_pcls _) (parses_pcls _)) (parses_pcls _))
      (parses_pplus _))

theorem SepLang_ne_nil : ∀ u, SepLang u → u ≠ [] := by
  rintro u (h | (h | h) | h)
  · exact LOne_ne_nil h
  · exact LCat_ne_nil_left (fun v hv => LOne_ne_nil hv) u h
  · exact LOne_ne_nil h
  · exact LPlus_ne_nil h

theorem parses_pComp : Parses pComp CompLang := by
  unfold pComp CompLang
  exact parses_pseq (parses_pplus _)
    (parses_pstar (parses_pseq parses_pSep (parses_pplus _))
      (fun u hu => LCat_ne_nil_left SepLang_ne_nil u hu))

theorem CompLang_ne_nil : ∀ u, CompLang u → u ≠ [] := by
  intro u hu
  exact LCat_ne_nil_left (fun v hv => LPlus_ne_nil hv) u hu

theorem parses_pPath : Parses pPath PathLang := by
  unfold pPath PathLang
  exact parses_pseq parses_pComp
    (parses_pstar (parses_pseq (parses_pcls _) parses_pComp)
      (fun u hu => LCat_ne_nil_left (fun v hv => LOne_ne_nil hv) u hu))

theorem parses_pHostPort : Parses pHostPort HostPortLang := by
  unfold pHostPort HostPortLang
  exact parses_popt (parses_pseq (parses_pplus _)
    (parses_pseq (parses_popt (parses_pseq (parses_pcls _) (parses_pplus _)))
      (parses_pcls _)))

theorem parses_pTag : Parses pTag TagLang := by
  unfold pTag TagLang
  exact parses_popt (parses_pseq (parses_pcls _) (parses_pplus _))

theorem parses_pFull : Parses pFull DockerNameLang := by
  unfold pFull DockerNameLang
  exact parses_pseq parses_pHostPort (parses_pseq parses_pPath parses_pTag)

/-- The executable validator accepts exactly the words of the regex language,
possibly followed by one final newline (the Python `$` semantics). -/
theorem is_valid_iff (s : String) :
    is_valid_docker_image_name s = true ↔
      (DockerNameLang s.data ∨ ∃ u, DockerNameLang u ∧ s.data = u ++ [nlChar]) := by
  unfold is_valid_docker_image_name
  rw [List.any_eq_true]
  constructor
  · rintro ⟨r, hr, hor⟩
    rcases Bool.or_eq_true .. |>.mp hor with h | h
    · have hr' : r = [] := by rwa [beq_iff_eq] at h
      subst hr'
      rcases (parses_pFull s.data []).mp hr with ⟨u, hu, he⟩
      rw [List.append_nil] at he
      exact Or.inl (he ▸ hu)
    · have hr' : r = [nlChar] := by
        have := h
        rwa [beq_iff_eq] at this
      subst hr'
      rcases (parses_pFull s.data [nlChar]).mp hr with ⟨u, hu, he⟩
      exact Or.inr ⟨u, hu, he⟩
  · rintro (h | ⟨u, hu, he⟩)
    · refine ⟨[], (parses_pFull s.data []).mpr ⟨s.data, h, (List.append_nil _).symm⟩, ?_⟩
      simp
    · refine ⟨[nlChar], (parses_pFull s.data [nlChar]).mpr ⟨u, hu, he⟩, ?_⟩
      simp

/-- The spec-side matcher accepts exactly the words of the grammar as the
specification states it. -/
theorem specC2Match_iff (s : String) : specC2Match s = true ↔ SpecC2Grammar s.data := by
  unfold specC2Match
  have hp : Parses (pseq pHostPort (pseq pComp pTag)) SpecC2Grammar := by
    unfold SpecC2Grammar
    exact parses_pseq parses_pHostPort (parses_pseq parses_pComp parses_pTag)
  rw [List.any_eq_true]
  constructor
  · rintro ⟨r, hr, hb⟩
    have hr' : r = [] := by rwa [beq_iff_eq] at hb
    subst hr'
    rcases (hp s.data []).mp hr with ⟨u, hu, he⟩
    rw [List.append_nil] at he
    exact he ▸ hu
  · intro h
    exact ⟨[], (hp s.data []).mpr ⟨s.data, h, (List.append_nil _).symm⟩, by simp⟩

end Utilities

/-- C2, counterexample: the image-name grammar exactly as the claim states it
rejects `a/b/c` (no slash-separated path repetition) and rejects a name
followed by a newline, yet `Utilities.is_valid_docker_image_name` accepts
both, so validation does not return false on every string outside that
grammar. -/
theorem c2_spec_grammar_counterexample :
    Utilities.is_valid_docker_image_name "a/b/c" = true ∧
    ¬ Utilities.SpecC2Grammar (String.data "a/b/c") ∧
    Utilities.is_valid_docker_image_name ("a" ++ String.singleton nlChar) = true ∧
    ¬ Utilities.SpecC2Grammar (String.data ("a" ++ String.singleton nlChar)) := by
  refine ⟨rfl, ?_, rfl, ?_⟩
  · intro h
    have h2 := (Utilities.specC2Match_iff "a/b/c").mpr h
    rw [show Utilities.specC2Match "a/b/c" = false from rfl] at h2
    exact Bool.noConfusion h2
  · intro h
    have h2 := (Utilities.specC2Match_iff ("a" ++ String.singleton nlChar)).mpr h
    rw [show Utilities.specC2Match ("a" ++ String.singleton nlChar) = false from rfl] at h2
    exact Bool.noConfusion h2

/-- C2, amended: Docker image-name validation returns true exactly on the
strings of the grammar `[host[:port]/] component (sep component)*
(/ component (sep component)*)* [:tag]` — i.e. the claim's grammar extended
with slash-separated repetition of sep-joined components — optionally followed
by one terminating newline (Python `$` semantics); it returns false on every
other string. -/
theorem c2_amended_docker_name_validation (s : String) :
    Utilities.is_valid_docker_image_name s = true ↔
      (Utilities.DockerNameLang s.data ∨
        ∃ u, Utilities.DockerNameLang u ∧ s.data = u ++ [nlChar]) :=
  Utilities.is_valid_iff s

namespace VscodeProjectCreator

theorem strLe_trans : ∀ a b c : String, strLe a b → strLe b c → strLe a c := by
  intro a b c hab hbc
  simp only [strLe, decide_eq_true_eq] at hab hbc ⊢
  exact le_trans hab hbc

theorem strLe_total : ∀ a b : String, strLe a b || strLe b a := by
  intro a b
  simp only [strLe, Bool.or_eq_true, decide_eq_true_eq]
  exact le_total a b

theorem lex_append_cons (l : List Char) (c : Char) (t : List Char) :
    List.Lex (fun x y => x < y) l (l ++ c :: t) := by
  induction l with
  | nil => exact List.Lex.nil
  | cons x xs ih => exact List.Lex.cons ih

/-- A key strictly below another key is lexicographically smaller. -/
theorem key_below_lt {a p : String} (h : KeyBelow a p) : a < p := by
  rcases h with ⟨r, _, rfl⟩
  rw [String.lt_iff_toList_lt]
  have he : (a ++ "/" ++ r).toList = a.toList ++ Char.ofNat 47 :: r.toList := by
    simp only [String.toList, String.data_append, List.append_assoc]
    rfl
  rw [he]
  exact lex_append_cons _ _ _

theorem indexOf_lt_of_pairwise_le {L : List String}
    (h : L.Pairwise (fun x y => strLe x y = true)) {a b : String}
    (ha : a ∈ L) (hb : b ∈ L) (hlt : a < b) : L.indexOf a < L.indexOf b := by
  induction L with
  | nil => exact absurd ha (List.not_mem_nil a)
  | cons x xs ih =>
    rcases List.pairwise_cons.mp h with ⟨hx, hxs⟩
    by_cases hax : x = a
    · subst hax
      rw [List.indexOf_cons_self]
      rw [List.indexOf_cons_ne xs (ne_of_lt hlt)]
      exact Nat.succ_pos _
    · have ha' : a ∈ xs := by
        rcases List.mem_cons.mp ha with h1 | h1
        · exact absurd h1.symm hax
        · exact h1
      by_cases hbx : x = b
      · subst hbx
        have hle : x ≤ a := by
          have := hx a ha'
          simpa [strLe, decide_eq_true_eq] using this
        exact absurd hle (not_le_of_lt hlt)
      · have hb' : b ∈ xs := by
          rcases List.mem_cons.mp hb with h1 | h1
          · exact absurd h1.symm hbx
          · exact h1
        rw [List.indexOf_cons_ne xs hax, List.indexOf_cons_ne xs hbx]
        exact Nat.succ_lt_succ (ih hxs ha' hb')

end VscodeProjectCreator

/-- C5: `VscodeProjectCreator._install_items` walks any manifest in ascending
lexicographic order of the destination keys: the installer iterates exactly
`sortedKeys`, which is a permutation of the manifest's keys, is sorted
ascending, and places any listed ancestor key strictly before every key below
it in the destination tree. -/
theorem c5_installer_lexicographic_order
    (items : List (String × VscodeProjectCreator.Item)) :
    (∀ res render resDir wsDir fs,
      VscodeProjectCreator.installItems res render resDir wsDir items fs =
        VscodeProjectCreator.installItemsGo res render resDir wsDir items
          (VscodeProjectCreator.sortedKeys items) fs) ∧
    (VscodeProjectCreator.sortedKeys items).Pairwise (fun a b => a ≤ b) ∧
    (VscodeProjectCreator.sortedKeys items).Perm (items.map (fun e => e.1)) ∧
    (∀ a p, a ∈ items.map (fun e => e.1) → p ∈ items.map (fun e => e.1) →
      VscodeProjectCreator.KeyBelow a p →
        (VscodeProjectCreator.sortedKeys items).indexOf a <
          (VscodeProjectCreator.sortedKeys items).indexOf p) := by
  have hkeys : VscodeProjectCreator.sortedKeys items
      = (items.map (fun e => e.1)).mergeSort VscodeProjectCreator.strLe := rfl
  have hpw : (VscodeProjectCreator.sortedKeys items).Pairwise
      (fun a b => VscodeProjectCreator.strLe a b = true) := by
    rw [hkeys]
    exact List.sorted_mergeSort VscodeProjectCreator.strLe_trans
      VscodeProjectCreator.strLe_total (items.map (fun e => e.1))
  have hperm : (VscodeProjectCreator.sortedKeys items).Perm (items.map (fun e => e.1)) := by
    rw [hkeys]
    exact List.mergeSort_perm (items.map (fun e => e.1)) VscodeProjectCreator.strLe
  refine ⟨fun _ _ _ _ _ => rfl, ?_, hperm, ?_⟩
  · exact hpw.imp (by
      intro a b h
      simpa [VscodeProjectCreator.strLe, decide_eq_true_eq] using h)
  · intro a p ha hp hbelow
    exact VscodeProjectCreator.indexOf_lt_of_pairwise_le hpw
      (hperm.mem_iff.mpr ha) (hperm.mem_iff.mpr hp)
      (VscodeProjectCreator.key_below_lt hbelow)

/-- Witness for C5 on a concrete manifest containing an ancestor and a child
destination key. -/
theorem c5_installer_lexicographic_order_witness :
    (VscodeProjectCreator.sortedKeys
      [("a", VscodeProjectCreator.Item.dirItem none),
       ("a/b", VscodeProjectCreator.Item.fileItem none false)]).indexOf "a" <
    (VscodeProjectCreator.sortedKeys
      [("a", VscodeProjectCreator.Item.dirItem none),
       ("a/b", VscodeProjectCreator.Item.fileItem none false)]).indexOf "a/b" :=
  (c5_installer_lexicographic_order
    [("a", VscodeProjectCreator.Item.dirItem none),
     ("a/b", VscodeProjectCreator.Item.fileItem none false)]).2.2.2 "a" "a/b"
    (by simp) (by simp) ⟨"b", by simp, rfl⟩

/-- Every joined element occurs inside a Python `sep.join`. -/
theorem data_infix_pyJoin (sep : String) (l : List String) (x : String) (hx : x ∈ l) :
    x.data <:+: (pyJoin sep l).data := by
  induction l with
  | nil => exact absurd hx (List.not_mem_nil x)
  | cons y ys ih =>
    cases ys with
    | nil =>
      rcases List.mem_singleton.mp hx with rfl
      exact List.infix_refl _
    | cons z zs =>
      have hjoin : (pyJoin sep (y :: z :: zs)).data
          = (y ++ sep).data ++ (pyJoin sep (z :: zs)).data := by
        simp [pyJoin, String.data_append, List.append_assoc]
      rcases List.mem_cons.mp hx with rfl | hx'
      · rw [hjoin]
        have : x.data <+: (x ++ sep).data := by
          rw [String.data_append]
          exact List.prefix_append _ _
        exact (this.trans (List.prefix_append _ _)).isInfix
      · have h := ih hx'
        rw [hjoin]
        exact h.trans (List.suffix_append _ _).isInfix

/-- C3: resolving a distribution identifier that is absent from a non-empty
variant catalog fails, and the error message enumerates every identifier of
the catalog together with its numeric ROS version tag. -/
theorem c3_unsupported_distro_enumerates
    (d yamlFile : String) (catalog : List (String × Variant))
    (hne : catalog ≠ []) (hd : pyStrip d ≠ "")
    (habs : ∀ kv ∈ catalog, kv.1 ≠ pyStrip d) :
    RosVariant.lookup d yamlFile catalog =
      .error ("Found ROS distro " ++ quoteS ++ pyStrip d ++ quoteS
        ++ ". Allowed ROS distros: " ++ RosVariant.supportedMsg catalog) ∧
    ∀ kv ∈ catalog,
      (RosVariant.formatEntry kv.1 kv.2).data <:+:
        ("Found ROS distro " ++ quoteS ++ pyStrip d ++ quoteS
          ++ ". Allowed ROS distros: " ++ RosVariant.supportedMsg catalog).data := by
  constructor
  · unfold RosVariant.lookup
    rw [if_neg hd]
    have hempty : catalog.isEmpty = false := by
      cases catalog with
      | nil => exact absurd rfl hne
      | cons a as => rfl
    rw [hempty]
    simp only [Bool.false_eq_true, if_false]
    have hfind : catalog.find? (fun kv => kv.1 == pyStrip d) = none := by
      rw [List.find?_eq_none]
      intro kv hkv
      simp only [beq_iff_eq]
      exact habs kv hkv
    rw [hfind]
  · intro kv hkv
    have h1 : (RosVariant.formatEntry kv.1 kv.2).data <:+:
        (RosVariant.supportedMsg catalog).data := by
      apply data_infix_pyJoin
      exact List.mem_map.mpr ⟨kv, hkv, rfl⟩
    have h2 : (RosVariant.supportedMsg catalog).data <:+:
        ("Found ROS distro " ++ quoteS ++ pyStrip d ++ quoteS
          ++ ". Allowed ROS distros: " ++ RosVariant.supportedMsg catalog).data := by
      rw [String.data_append]
      exact (List.suffix_append _ _).isInfix
    exact h1.trans h2

/-- Witness for C3 on a concrete two-entry catalog and an absent identifier. -/
theorem c3_unsupported_distro_enumerates_witness :
    RosVariant.lookup "unknown_distro" "ros_variants.yaml"
      [("humble", ⟨2, "humble", "22.04", "17", "17", "3.10"⟩),
       ("noetic", ⟨1, "noetic", "20.04", "11", "14", "3.8"⟩)] =
      .error ("Found ROS distro " ++ quoteS ++ pyStrip "unknown_distro" ++ quoteS
        ++ ". Allowed ROS distros: " ++ RosVariant.supportedMsg
          [("humble", ⟨2, "humble", "22.04", "17", "17", "3.10"⟩),
           ("noetic", ⟨1, "noetic", "20.04", "11", "14", "3.8"⟩)]) ∧
    ∀ kv ∈ ([("humble", (⟨2, "humble", "22.04", "17", "17", "3.10"⟩ : Variant)),
       ("noetic", ⟨1, "noetic", "20.04", "11", "14", "3.8"⟩)] :
         List (String × Variant)),
      (RosVariant.formatEntry kv.1 kv.2).data <:+:
        ("Found ROS distro " ++ quoteS ++ pyStrip "unknown_distro" ++ quoteS
          ++ ". Allowed ROS distros: " ++ RosVariant.supportedMsg
            [("humble", ⟨2, "humble", "22.04", "17", "17", "3.10"⟩),
             ("noetic", ⟨1, "noetic", "20.04", "11", "14", "3.8"⟩)]).data :=
  c3_unsupported_distro_enumerates "unknown_distro" "ros_variants.yaml"
    [("humble", ⟨2, "humble", "22.04", "17", "17", "3.10"⟩),
     ("noetic", ⟨1, "noetic", "20.04", "11", "14", "3.8"⟩)]
    (by simp) (by decide) (by decide)

theorem fileContent_writeFile_self (fs : FS) (p : FsPath) (c : String) :
    (fs.writeFile p c).fileContent p = some c := by
  simp [FS.writeFile, FS.fileContent, List.find?_cons_of_pos]

theorem find?_filter_keep {α : Type} (l : List α) (f g : α → Bool)
    (hdisj : ∀ x, g x = true → f x = true) :
    (l.filter f).find? g = l.find? g := by
  induction l with
  | nil => rfl
  | cons a l ih =>
    cases hfa : f a with
    | true =>
      rw [List.filter_cons, if_pos hfa]
      cases hga : g a with
      | true => simp only [List.find?, hga]
      | false =>
        simp only [List.find?, hga]
        exact ih
    | false =>
      have hga : g a = false := by
        cases hga : g a with
        | false => rfl
        | true => rw [hdisj a hga] at hfa; exact Bool.noConfusion hfa
      rw [List.filter_cons, if_neg (by rw [hfa]; exact Bool.false_ne_true)]
      rw [show List.find? g (a :: l) = List.find? g l from by simp only [List.find?, hga]]
      exact ih

theorem find?_filter_ne {l : List (FsPath × String)} {p q : FsPath} (h : q ≠ p) :
    (l.filter (fun e => ¬ e.1 == p)).find? (fun e => e.1 == q)
      = l.find? (fun e => e.1 == q) := by
  apply find?_filter_keep
  intro x hx
  have hxq : x.1 = q := by rwa [beq_iff_eq] at hx
  simp only [decide_eq_true_eq]
  intro hb
  rw [beq_iff_eq] at hb
  exact h (hxq.symm.trans hb)

theorem fileContent_writeFile_ne (fs : FS) (p q : FsPath) (c : String) (h : q ≠ p) :
    (fs.writeFile p c).fileContent q = fs.fileContent q := by
  unfold FS.writeFile FS.fileContent
  simp only
  rw [List.find?_cons_of_neg _ (by simpa using fun hq : p = q => h hq.symm)]
  rw [find?_filter_ne h]

/-- C9: the low-level file writer refuses to overwrite: when the destination
path already exists, `Utilities.write_file` raises the already-exists error
(producing no new filesystem, so the existing content is untouched); when the
destination does not exist it writes exactly that file, leaving every other
path and all directories unchanged. -/
theorem c9_write_file_refuses_overwrite (fs : FS) (p : FsPath) (t : String) :
    (fs.existsPath p = true →
      Utilities.write_file t p fs =
        .error ("File " ++ quoteS ++ p.render ++ quoteS ++ " already exists")) ∧
    (fs.existsPath p = false →
      Utilities.write_file t p fs = .ok (fs.writeFile p t) ∧
      (fs.writeFile p t).fileContent p = some t ∧
      (∀ q, q ≠ p → (fs.writeFile p t).fileContent q = fs.fileContent q) ∧
      (fs.writeFile p t).dirs = fs.dirs) := by
  constructor
  · intro hex
    unfold Utilities.write_file
    rw [if_pos hex]
  · intro hex
    refine ⟨?_, fileContent_writeFile_self fs p t,
      fun q hq => fileContent_writeFile_ne fs p q t hq, rfl⟩
    unfold Utilities.write_file
    rw [hex]
    simp

/-- Witness for C9: an existing file is refused, a fresh path is written. -/
theorem c9_write_file_refuses_overwrite_witness :
    (Utilities.write_file "new" ["home", "f.txt"]
        ⟨[["home"]], [(["home", "f.txt"], "old")]⟩ =
      .error ("File " ++ quoteS ++ FsPath.render ["home", "f.txt"] ++ quoteS
        ++ " already exists")) ∧
    (Utilities.write_file "new" ["home", "g.txt"]
        ⟨[["home"]], [(["home", "f.txt"], "old")]⟩ =
      .ok ((⟨[["home"]], [(["home", "f.txt"], "old")]⟩ : FS).writeFile
        ["home", "g.txt"] "new")) :=
  ⟨(c9_write_file_refuses_overwrite ⟨[["home"]], [(["home", "f.txt"], "old")]⟩
      ["home", "f.txt"] "new").1 (by decide),
   ((c9_write_file_refuses_overwrite ⟨[["home"]], [(["home", "f.txt"], "old")]⟩
      ["home", "g.txt"] "new").2 (by decide)).1⟩

/-- C8: the computed image-user home is `/root` exactly for the user `root`,
and `/home/<user>` for every other non-empty user name; in particular `root`
never yields `/home/root` and no other user ever yields `/root`. -/
theorem c8_img_user_home :
    RosProjectCreator.imgUserHome "root" = "/root" ∧
    RosProjectCreator.imgUserHome "root" ≠ "/home/root" ∧
    ∀ u : String, u ≠ "" → u ≠ "root" →
      RosProjectCreator.imgUserHome u = "/home/" ++ u ∧
      RosProjectCreator.imgUserHome u ≠ "/root" := by
  refine ⟨rfl, by decide, ?_⟩
  intro u _ hroot
  have hbeq : (u == "root") = false := by
    simp only [beq_eq_false_iff_ne, ne_eq]
    exact hroot
  constructor
  · simp [RosProjectCreator.imgUserHome, hbeq]
  · simp only [RosProjectCreator.imgUserHome, hbeq]
    intro h
    have hlen := congrArg String.length h
    simp only [Bool.false_eq_true, if_false, String.length_append] at hlen
    rw [show ("/home/").length = 6 from rfl, show ("/root").length = 5 from rfl] at hlen
    omega

/-- Witness for C8 at a concrete non-root user. -/
theorem c8_img_user_home_witness :
    RosProjectCreator.imgUserHome "robo" = "/home/" ++ "robo" ∧
    RosProjectCreator.imgUserHome "robo" ≠ "/root" :=
  c8_img_user_home.2.2 "robo" (by decide) (by decide)

/-- C7: every render-action entry of the editor-integration manifest carries a
non-empty dict context; and a render action whose context is missing (`None`)
or improper (not a dict) is rejected with the context error before anything is
written for that entry — the only effects that may precede the rejection are
the destination-clearing removals. -/
theorem c7_render_requires_context :
    (∀ (cfg : VscodeProjectCreator.Cfg) (k : String) (s : Option String)
        (ctx : VscodeProjectCreator.PyCtx) (e : Bool),
      (k, VscodeProjectCreator.Item.renderItem s ctx e) ∈
          VscodeProjectCreator.createItemsToInstall cfg →
        ∃ l, ctx = VscodeProjectCreator.PyCtx.pyDict l ∧ l ≠ []) ∧
    (∀ (res : List (String × VscodeProjectCreator.ResEntry))
        (render : String → List (String × String) → String)
        (resDir : String) (wsDir : FsPath) (key s : String) (exec : Bool)
        (tContent : String) (fs : FS) (ctx : VscodeProjectCreator.PyCtx),
      res.find? (fun e => e.1 == VscodeProjectCreator.resolveSrc resDir s)
          = some (VscodeProjectCreator.resolveSrc resDir s,
              VscodeProjectCreator.ResEntry.fileRes tContent) →
      (fs.isDir (wsDir ++ splitSlash key) = true →
        fs.hasChild (wsDir ++ splitSlash key) = false) →
      (ctx = VscodeProjectCreator.PyCtx.pyNone ∨
        ctx = VscodeProjectCreator.PyCtx.pyOther) →
      (VscodeProjectCreator.installItem res render resDir wsDir key
          (VscodeProjectCreator.Item.renderItem (some s) ctx exec) fs).2 =
        .error ((if ctx = VscodeProjectCreator.PyCtx.pyNone then
            "Context for Jinja2 rendering can" ++ quoteS ++ "t be None for element "
          else
            "Context for Jinja2 rendering must be a dictionary for element ")
          ++ quoteS ++ (wsDir ++ splitSlash key).render ++ quoteS ++ ".") ∧
      ∀ eff ∈ (VscodeProjectCreator.installItem res render resDir wsDir key
          (VscodeProjectCreator.Item.renderItem (some s) ctx exec) fs).1,
        ∃ p, eff = VscodeProjectCreator.Effect.removedFile p ∨
          eff = VscodeProjectCreator.Effect.removedDir p) := by
  constructor
  · intro cfg k s ctx e hmem
    simp only [VscodeProjectCreator.createItemsToInstall, List.mem_cons,
      List.not_mem_nil, or_false, Prod.mk.injEq] at hmem
    rcases hmem with ⟨_, hit⟩ | ⟨_, hit⟩ | ⟨_, hit⟩ | ⟨_, hit⟩ | ⟨_, hit⟩ | ⟨_, hit⟩
    · injection hit with _ hctx _
      exact ⟨_, hctx, by simp⟩
    · injection hit with _ hctx _
      exact ⟨_, hctx, by simp⟩
    · injection hit with _ hctx _
      exact ⟨_, hctx, by simp⟩
    · exact absurd hit (by simp)
    · injection hit with _ hctx _
      exact ⟨_, hctx, by simp⟩
    · injection hit with _ hctx _
      exact ⟨_, hctx, by simp⟩
  · intro res render resDir wsDir key s exec tContent fs ctx hres hdir hctx
    have hmsg : VscodeProjectCreator.installItemAct render (wsDir ++ splitSlash key)
        (some (VscodeProjectCreator.resolveSrc resDir s,
          VscodeProjectCreator.ResEntry.fileRes tContent))
        (VscodeProjectCreator.Item.renderItem (some s) ctx exec) =
        fun _ => ([], .error ((if ctx = VscodeProjectCreator.PyCtx.pyNone then
            "Context for Jinja2 rendering can" ++ quoteS ++ "t be None for element "
          else
            "Context for Jinja2 rendering must be a dictionary for element ")
          ++ quoteS ++ (wsDir ++ splitSlash key).render ++ quoteS ++ ".")) := by
      funext fs1
      rcases hctx with rfl | rfl
      · simp [VscodeProjectCreator.installItemAct]
      · simp [VscodeProjectCreator.installItemAct]
    have hstep : VscodeProjectCreator.installItem res render resDir wsDir key
        (VscodeProjectCreator.Item.renderItem (some s) ctx exec) fs =
      VscodeProjectCreator.installItemClear render (wsDir ++ splitSlash key)
        (some (VscodeProjectCreator.resolveSrc resDir s,
          VscodeProjectCreator.ResEntry.fileRes tContent))
        (VscodeProjectCreator.Item.renderItem (some s) ctx exec) fs := by
      unfold VscodeProjectCreator.installItem
      simp only [VscodeProjectCreator.Item.src, hres]
    rw [hstep]
    unfold VscodeProjectCreator.installItemClear
    rw [hmsg]
    by_cases hf : fs.isFile (wsDir ++ splitSlash key) = true
    · rw [if_pos hf]
      refine ⟨rfl, ?_⟩
      intro eff heff
      simp only at heff
      rcases List.mem_cons.mp heff with rfl | heff
      · exact ⟨wsDir ++ splitSlash key, Or.inl rfl⟩
      · exact absurd heff (List.not_mem_nil eff)
    · rw [if_neg hf]
      by_cases hd : fs.isDir (wsDir ++ splitSlash key) = true
      · rw [if_pos hd, if_neg (by rw [hdir hd]; exact Bool.false_ne_true)]
        refine ⟨rfl, ?_⟩
        intro eff heff
        simp only at heff
        rcases List.mem_cons.mp heff with rfl | heff
        · exact ⟨wsDir ++ splitSlash key, Or.inr rfl⟩
        · exact absurd heff (List.not_mem_nil eff)
      · rw [if_neg hd]
        exact ⟨rfl, fun eff heff => absurd heff (List.not_mem_nil eff)⟩

/-- Witness for C7: the first manifest entry carries a non-empty context, and
a render item with a `None` context on a concrete filesystem is rejected with
the context error. -/
theorem c7_render_requires_context_witness :
    (∃ l, VscodeProjectCreator.PyCtx.pyDict
        [("service", "devcont"), ("img_user", "robo"),
         ("img_workspace_dir", "/home/robo/ws")] =
        VscodeProjectCreator.PyCtx.pyDict l ∧ l ≠ []) ∧
    (VscodeProjectCreator.installItem
        [("res/vscode/x.j2", VscodeProjectCreator.ResEntry.fileRes "T")]
        (fun t _ => t) "res" ["ws"] "a.json"
        (VscodeProjectCreator.Item.renderItem (some "vscode/x.j2")
          VscodeProjectCreator.PyCtx.pyNone false) ⟨[], []⟩).2 =
      .error ("Context for Jinja2 rendering can" ++ quoteS
        ++ "t be None for element " ++ quoteS
        ++ FsPath.render (["ws"] ++ splitSlash "a.json") ++ quoteS ++ ".") :=
  ⟨c7_render_requires_context.1
      ⟨"robo", "img:latest", "/ws", "/home/robo/ws", "/home/robo/datasets",
        "/home/robo/.ssh", false, false, "", "/home/robo/.gitconfig", "1000",
        "1000", "17", "17", "humble", "rosbuild.sh", "dbg", "rwd", "clean"⟩
      ".devcontainer/devcontainer.json" (some "vscode/dot_devcontainer.j2")
      (VscodeProjectCreator.PyCtx.pyDict
        [("service", "devcont"), ("img_user", "robo"),
         ("img_workspace_dir", "/home/robo/ws")]) false
      (List.mem_cons_self _ _),
   (c7_render_requires_context.2
      [("res/vscode/x.j2", VscodeProjectCreator.ResEntry.fileRes "T")]
      (fun t _ => t) "res" ["ws"] "a.json" "vscode/x.j2" false "T" ⟨[], []⟩
      VscodeProjectCreator.PyCtx.pyNone rfl (by decide) (Or.inl rfl)).1⟩

/-- C10: the editor-integration installer overwrites pre-existing
destinations: an entry whose destination already exists as a regular file has
that file unlinked first and the entry then succeeds, leaving the new content
at the destination (both for copy-file and render entries); a destination that
is an existing empty directory is removed first and the entry also succeeds. -/
theorem c10_installer_overwrites_existing
    (res : List (String × VscodeProjectCreator.ResEntry))
    (render : String → List (String × String) → String)
    (resDir : String) (wsDir : FsPath) (key s : String) (exec : Bool)
    (content : String) (fs : FS) :
    (res.find? (fun e => e.1 == VscodeProjectCreator.resolveSrc resDir s)
        = some (VscodeProjectCreator.resolveSrc resDir s,
            VscodeProjectCreator.ResEntry.fileRes content) →
      (fs.isFile (wsDir ++ splitSlash key) = true →
        (VscodeProjectCreator.installItem res render resDir wsDir key
            (VscodeProjectCreator.Item.fileItem (some s) exec) fs).1.head? =
          some (VscodeProjectCreator.Effect.removedFile (wsDir ++ splitSlash key)) ∧
        ∃ fs2, (VscodeProjectCreator.installItem res render resDir wsDir key
            (VscodeProjectCreator.Item.fileItem (some s) exec) fs).2 = .ok fs2 ∧
          fs2.fileContent (wsDir ++ splitSlash key) = some content) ∧
      (∀ entries, fs.isFile (wsDir ++ splitSlash key) = true →
        (VscodeProjectCreator.installItem res render resDir wsDir key
            (VscodeProjectCreator.Item.renderItem (some s)
              (VscodeProjectCreator.PyCtx.pyDict entries) exec) fs).1.head? =
          some (VscodeProjectCreator.Effect.removedFile (wsDir ++ splitSlash key)) ∧
        ∃ fs2, (VscodeProjectCreator.installItem res render resDir wsDir key
            (VscodeProjectCreator.Item.renderItem (some s)
              (VscodeProjectCreator.PyCtx.pyDict entries) exec) fs).2 = .ok fs2 ∧
          fs2.fileContent (wsDir ++ splitSlash key) = some (render content entries)) ∧
      (fs.isFile (wsDir ++ splitSlash key) = false →
        fs.isDir (wsDir ++ splitSlash key) = true →
        fs.hasChild (wsDir ++ splitSlash key) = false →
        (VscodeProjectCreator.installItem res render resDir wsDir key
            (VscodeProjectCreator.Item.fileItem (some s) exec) fs).1.head? =
          some (VscodeProjectCreator.Effect.removedDir (wsDir ++ splitSlash key)) ∧
        ∃ fs2, (VscodeProjectCreator.installItem res render resDir wsDir key
            (VscodeProjectCreator.Item.fileItem (some s) exec) fs).2 = .ok fs2 ∧
          fs2.fileContent (wsDir ++ splitSlash key) = some content)) := by
  intro hres
  have hstepF : VscodeProjectCreator.installItem res render resDir wsDir key
      (VscodeProjectCreator.Item.fileItem (some s) exec) fs =
    VscodeProjectCreator.installItemClear render (wsDir ++ splitSlash key)
      (some (VscodeProjectCreator.resolveSrc resDir s,
        VscodeProjectCreator.ResEntry.fileRes content))
      (VscodeProjectCreator.Item.fileItem (some s) exec) fs := by
    unfold VscodeProjectCreator.installItem
    simp only [VscodeProjectCreator.Item.src, hres]
  refine ⟨?_, ?_, ?_⟩
  · intro hf
    rw [hstepF]
    unfold VscodeProjectCreator.installItemClear
    rw [if_pos hf]
    simp only [VscodeProjectCreator.installItemAct]
    refine ⟨rfl, _, rfl, fileContent_writeFile_self _ _ _⟩
  · intro entries hf
    have hstepR : VscodeProjectCreator.installItem res render resDir wsDir key
        (VscodeProjectCreator.Item.renderItem (some s)
          (VscodeProjectCreator.PyCtx.pyDict entries) exec) fs =
      VscodeProjectCreator.installItemClear render (wsDir ++ splitSlash key)
        (some (VscodeProjectCreator.resolveSrc resDir s,
          VscodeProjectCreator.ResEntry.fileRes content))
        (VscodeProjectCreator.Item.renderItem (some s)
          (VscodeProjectCreator.PyCtx.pyDict entries) exec) fs := by
      unfold VscodeProjectCreator.installItem
      simp only [VscodeProjectCreator.Item.src, hres]
    rw [hstepR]
    unfold VscodeProjectCreator.installItemClear
    rw [if_pos hf]
    simp only [VscodeProjectCreator.installItemAct]
    refine ⟨rfl, _, rfl, fileContent_writeFile_self _ _ _⟩
  · intro hf hd hch
    rw [hstepF]
    unfold VscodeProjectCreator.installItemClear
    rw [if_neg (by rw [hf]; exact Bool.false_ne_true), if_pos hd,
      if_neg (by rw [hch]; exact Bool.false_ne_true)]
    simp only [VscodeProjectCreator.installItemAct]
    refine ⟨rfl, _, rfl, fileContent_writeFile_self _ _ _⟩

/-- Witness for C10: a concrete copy-file entry replaces an existing file, and
removes an existing empty directory at the destination. -/
theorem c10_installer_overwrites_existing_witness :
    ((VscodeProjectCreator.installItem
        [("res/vscode/x", VscodeProjectCreator.ResEntry.fileRes "NEW")]
        (fun t _ => t) "res" ["ws"] "a.json"
        (VscodeProjectCreator.Item.fileItem (some "vscode/x") false)
        ⟨[["ws"]], [(["ws", "a.json"], "old")]⟩).1.head? =
      some (VscodeProjectCreator.Effect.removedFile (["ws"] ++ splitSlash "a.json")) ∧
      ∃ fs2, (VscodeProjectCreator.installItem
          [("res/vscode/x", VscodeProjectCreator.ResEntry.fileRes "NEW")]
          (fun t _ => t) "res" ["ws"] "a.json"
          (VscodeProjectCreator.Item.fileItem (some "vscode/x") false)
          ⟨[["ws"]], [(["ws", "a.json"], "old")]⟩).2 = .ok fs2 ∧
        fs2.fileContent (["ws"] ++ splitSlash "a.json") = some "NEW") ∧
    ((VscodeProjectCreator.installItem
        [("res/vscode/x", VscodeProjectCreator.ResEntry.fileRes "NEW")]
        (fun t _ => t) "res" ["ws"] "a.json"
        (VscodeProjectCreator.Item.fileItem (some "vscode/x") false)
        ⟨[["ws"], ["ws", "a.json"]], []⟩).1.head? =
      some (VscodeProjectCreator.Effect.removedDir (["ws"] ++ splitSlash "a.json")) ∧
      ∃ fs2, (VscodeProjectCreator.installItem
          [("res/vscode/x", VscodeProjectCreator.ResEntry.fileRes "NEW")]
          (fun t _ => t) "res" ["ws"] "a.json"
          (VscodeProjectCreator.Item.fileItem (some "vscode/x") false)
          ⟨[["ws"], ["ws", "a.json"]], []⟩).2 = .ok fs2 ∧
        fs2.fileContent (["ws"] ++ splitSlash "a.json") = some "NEW") :=
  ⟨(c10_installer_overwrites_existing
      [("res/vscode/x", VscodeProjectCreator.ResEntry.fileRes "NEW")]
      (fun t _ => t) "res" ["ws"] "a.json" "vscode/x" false "NEW"
      ⟨[["ws"]], [(["ws", "a.json"], "old")]⟩ rfl).1 (by decide),
   (c10_installer_overwrites_existing
      [("res/vscode/x", VscodeProjectCreator.ResEntry.fileRes "NEW")]
      (fun t _ => t) "res" ["ws"] "a.json" "vscode/x" false "NEW"
      ⟨[["ws"], ["ws", "a.json"]], []⟩ rfl).2.2 (by decide) (by decide) (by decide)⟩

/-- C4: when the output directory already exists (as after a first successful
run), a second run with the same configuration fails during validation with
the already-exists error and returns the filesystem unchanged, no matter what
the creation phase would have done — the tool is deliberately not idempotent. -/
theorem c4_second_run_already_exists
    (k : RosProjectCreator.St → FS → Except String Unit × FS)
    (a : RosProjectCreator.Args) (env : RosProjectCreator.Env)
    (res : RosProjectCreator.Resources) (fs : FS) (pdRaw ru : String)
    (hpid : pyStrip a.project_id ≠ "")
    (hpd : a.project_dir = some pdRaw)
    (hpdne : pyStrip pdRaw ≠ "")
    (hsudo : env.sudo_user = some ru) (hru : ru ≠ "")
    (hhome : env.user_home.isPrefixOf
      (RosProjectCreator.resolvePath (pyStrip pdRaw)) = true)
    (hex : fs.existsPath (RosProjectCreator.resolvePath (pyStrip pdRaw)) = true) :
    RosProjectCreator.runWith k a env res fs =
      (.error (RosProjectCreator.alreadyExistsMsg
        (RosProjectCreator.resolvePath (pyStrip pdRaw))), fs) := by
  have hinit : RosProjectCreator.init a env res fs =
      .error (RosProjectCreator.alreadyExistsMsg
        (RosProjectCreator.resolvePath (pyStrip pdRaw))) := by
    unfold RosProjectCreator.init
    rw [hpd]
    simp only [hpid, if_false, hsudo, hru, hhome, hex, hpdne, and_false, if_true,
      not_true, ite_false, ite_true, if_neg, reduceIte]
  unfold RosProjectCreator.runWith
  rw [hinit]

/-- Witness for C4 on the concrete scenario configuration with the output
directory already present. -/
theorem c4_second_run_already_exists_witness :
    RosProjectCreator.runWith (fun _ fsx => (.ok (), fsx))
      ⟨"robproj", some "/home/user/robproj", "humble", "myorg/base:latest",
        [("linux/amd64", ["x86_64"])], "", none, some "robo", false, true, true⟩
      ⟨some "user", some "user", ["home", "user"], "x86_64", true, true⟩
      ⟨"/res", "/res/ros/ros_variants.yaml",
        [("humble", ⟨2, "humble", "22.04", "17", "17", "3.10"⟩)], true, true⟩
      ⟨[["home"], ["home", "user"], ["home", "user", "robproj"]], []⟩ =
    (.error (RosProjectCreator.alreadyExistsMsg
      (RosProjectCreator.resolvePath (pyStrip "/home/user/robproj"))),
     ⟨[["home"], ["home", "user"], ["home", "user", "robproj"]], []⟩) :=
  c4_second_run_already_exists (fun _ fsx => (.ok (), fsx))
    ⟨"robproj", some "/home/user/robproj", "humble", "myorg/base:latest",
      [("linux/amd64", ["x86_64"])], "", none, some "robo", false, true, true⟩
    ⟨some "user", some "user", ["home", "user"], "x86_64", true, true⟩
    ⟨"/res", "/res/ros/ros_variants.yaml",
      [("humble", ⟨2, "humble", "22.04", "17", "17", "3.10"⟩)], true, true⟩
    ⟨[["home"], ["home", "user"], ["home", "user", "robproj"]], []⟩
    "/home/user/robproj" "user"
    (by decide) rfl (by decide) rfl (by decide) (by decide) (by decide)

/-- C6: with a distribution identifier absent from the (non-empty) catalog,
the run fails during validation with the unsupported-distro error — whose text
enumerates every supported identifier with its ROS version tag — and returns
the filesystem unchanged: the failure precedes any mutation, whatever the
creation phase would have done. -/
theorem c6_unknown_distro_fails_before_mutation
    (k : RosProjectCreator.St → FS → Except String Unit × FS)
    (a : RosProjectCreator.Args) (env : RosProjectCreator.Env)
    (res : RosProjectCreator.Resources) (fs : FS) (pdRaw ru : String)
    (hpid : pyStrip a.project_id ≠ "")
    (hpd : a.project_dir = some pdRaw)
    (hpdne : pyStrip pdRaw ≠ "")
    (hsudo : env.sudo_user = some ru) (hru : ru ≠ "")
    (hhome : env.user_home.isPrefixOf
      (RosProjectCreator.resolvePath (pyStrip pdRaw)) = true)
    (hex : fs.existsPath (RosProjectCreator.resolvePath (pyStrip pdRaw)) = false)
    (hresdir : res.resources_dir_present = true)
    (hcat : res.variants ≠ [])
    (hd : pyStrip a.ros_distro ≠ "")
    (habs : ∀ kv ∈ res.variants, kv.1 ≠ pyStrip a.ros_distro) :
    RosProjectCreator.runWith k a env res fs =
      (.error ("Found ROS distro " ++ quoteS ++ pyStrip a.ros_distro ++ quoteS
        ++ ". Allowed ROS distros: " ++ RosVariant.supportedMsg res.variants), fs) ∧
    ∀ kv ∈ res.variants,
      (RosVariant.formatEntry kv.1 kv.2).data <:+:
        ("Found ROS distro " ++ quoteS ++ pyStrip a.ros_distro ++ quoteS
          ++ ". Allowed ROS distros: " ++ RosVariant.supportedMsg res.variants).data := by
  have hlookup : RosVariant.lookup a.ros_distro res.variants_yaml res.variants =
      .error ("Found ROS distro " ++ quoteS ++ pyStrip a.ros_distro ++ quoteS
        ++ ". Allowed ROS distros: " ++ RosVariant.supportedMsg res.variants) := by
    unfold RosVariant.lookup
    rw [if_neg hd]
    have hempty : res.variants.isEmpty = false := by
      cases hv : res.variants with
      | nil => exact absurd hv hcat
      | cons x xs => rfl
    rw [hempty]
    simp only [Bool.false_eq_true, if_false]
    have hfind : res.variants.find? (fun kv => kv.1 == pyStrip a.ros_distro) = none := by
      rw [List.find?_eq_none]
      intro kv hkv
      simp only [beq_iff_eq]
      exact habs kv hkv
    rw [hfind]
  constructor
  · have hinit : RosProjectCreator.init a env res fs =
        .error ("Found ROS distro " ++ quoteS ++ pyStrip a.ros_distro ++ quoteS
          ++ ". Allowed ROS distros: " ++ RosVariant.supportedMsg res.variants) := by
      unfold RosProjectCreator.init
      rw [hpd]
      simp only [hpid, hpdne, hsudo, hru, hhome, hex, hresdir, hlookup, and_false,
        if_false, if_true, not_true, reduceIte, Bool.false_eq_true]
    unfold RosProjectCreator.runWith
    rw [hinit]
  · intro kv hkv
    have h1 : (RosVariant.formatEntry kv.1 kv.2).data <:+:
        (RosVariant.supportedMsg res.variants).data := by
      apply data_infix_pyJoin
      exact List.mem_map.mpr ⟨kv, hkv, rfl⟩
    have h2 : (RosVariant.supportedMsg res.variants).data <:+:
        ("Found ROS distro " ++ quoteS ++ pyStrip a.ros_distro ++ quoteS
          ++ ". Allowed ROS distros: " ++ RosVariant.supportedMsg res.variants).data := by
      rw [String.data_append]
      exact (List.suffix_append _ _).isInfix
    exact h1.trans h2

/-- Witness for C6 on the concrete scenario configuration with
`distro="unknown_distro"` and a fresh filesystem. -/
theorem c6_unknown_distro_fails_before_mutation_witness :
    RosProjectCreator.runWith (fun _ fsx => (.ok (), fsx))
      ⟨"robproj", some "/home/user/robproj", "unknown_distro", "myorg/base:latest",
        [("linux/amd64", ["x86_64"])], "", none, some "robo", false, true, true⟩
      ⟨some "user", some "user", ["home", "user"], "x86_64", true, true⟩
      ⟨"/res", "/res/ros/ros_variants.yaml",
        [("humble", ⟨2, "humble", "22.04", "17", "17", "3.10"⟩)], true, true⟩
      ⟨[["home"], ["home", "user"]], []⟩ =
    (.error ("Found ROS distro " ++ quoteS ++ pyStrip "unknown_distro" ++ quoteS
      ++ ". Allowed ROS distros: " ++ RosVariant.supportedMsg
        [("humble", ⟨2, "humble", "22.04", "17", "17", "3.10"⟩)]),
     ⟨[["home"], ["home", "user"]], []⟩) :=
  (c6_unknown_distro_fails_before_mutation (fun _ fsx => (.ok (), fsx))
    ⟨"robproj", some "/home/user/robproj", "unknown_distro", "myorg/base:latest",
      [("linux/amd64", ["x86_64"])], "", none, some "robo", false, true, true⟩
    ⟨some "user", some "user", ["home", "user"], "x86_64", true, true⟩
    ⟨"/res", "/res/ros/ros_variants.yaml",
      [("humble", ⟨2, "humble", "22.04", "17", "17", "3.10"⟩)], true, true⟩
    ⟨[["home"], ["home", "user"]], []⟩ "/home/user/robproj" "user"
    (by decide) rfl (by decide) rfl (by decide) (by decide) (by decide) rfl
    (by simp) (by decide) (by decide)).1

/-- C1: the command-line run of the scenario configuration cannot succeed:
`create_ros_project.main` passes fifteen positional arguments to the
thirteen-parameter `RosProjectCreator.__init__`, so the call never binds and
every run — whatever would follow a successful bind — raises `TypeError`,
exits with code 1 and leaves the fresh filesystem untouched: no
`src/bringup/CMakeLists.txt`, no `.gitignore` and no `docker/Dockerfile` are
created under the output root, contradicting the claimed exit code 0. -/
theorem c1_cli_scenario_raises_type_error :
    ∀ k : FS → Nat × FS,
      CreateRosProject.pythonCallBinds CreateRosProject.rosProjectCreatorParams
        CreateRosProject.rosProjectCreatorDefaults CreateRosProject.mainCallArgs = false ∧
      CreateRosProject.mainRun k CreateRosProject.scenarioFS =
        (1, CreateRosProject.scenarioFS) ∧
      (1 : Nat) ≠ 0 ∧
      FS.isFile CreateRosProject.scenarioFS
        (CreateRosProject.robprojDir ++ ["src", "bringup", "CMakeLists.txt"]) = false ∧
      FS.isFile CreateRosProject.scenarioFS
        (CreateRosProject.robprojDir ++ [".gitignore"]) = false ∧
      FS.isFile CreateRosProject.scenarioFS
        (CreateRosProject.robprojDir ++ ["docker", "Dockerfile"]) = false := by
  intro k
  refine ⟨rfl, ?_, by decide, rfl, rfl, rfl⟩
  unfold CreateRosProject.mainRun
  rw [show CreateRosProject.pythonCallBinds CreateRosProject.rosProjectCreatorParams
    CreateRosProject.rosProjectCreatorDefaults CreateRosProject.mainCallArgs
      = false from rfl]
  rfl
